import Mathlib

/-!
# Verification of the Parasite repository core

Shallow embedding of the repository's core systems, translated from the
TypeScript source:

* `GameStateManager` (src/unnamed/part_001): run/persistent state, biomass
  and level-up logic, grow/shrink, endRun rewards.
* `Entity.damage` / `Entity.heal` (src/src/core/ObjectPool.ts bundle,
  Entity class).
* `GameScene.enforceBoundaries` (src/src/entities/Parasite.ts and
  src/unnamed/part_000).
* `Parasite.update` physics integration (src/src/entities/Parasite.ts).
* `circleCircleDetailed` and `SpatialHash` (src/src/core/Collision.ts).
* `EventBus` (src/src/core/Events.ts).

JavaScript `number` is modelled as `ℚ` where the code only performs field
operations and comparisons, and as `ℝ` where the code calls `Math.sqrt` or
`Math.pow` with fractional exponents.  Event emission (`Events.emit`) from
the state manager is modelled as appending to a trace list carried in the
state.
-/

/-- Events emitted through the bus by the state manager; only the fields the
claims inspect are carried.  From GameEventType (src/src/core/Events.ts). -/
inductive GEvent where
  | levelUp (level : ℕ)
  | grew (oldSize newSize : ℚ)
  | shrank (oldSize newSize : ℚ)
  | gameStarted
  | gameOver
  deriving DecidableEq, Repr

/-- ParasiteStats (src/unnamed/part_001, lines 6-23); combat stats that no
modelled operation touches are kept for fidelity. -/
structure ParasiteStats where
  maxHealth : ℚ
  health : ℚ
  baseSize : ℚ
  sizeMultiplier : ℚ
  acceleration : ℚ
  maxSpeed : ℚ
  drag : ℚ
  turnRate : ℚ
  damage : ℚ
  armor : ℚ
  detectionRadius : ℚ
  deriving DecidableEq, Repr

/-- RunState (src/unnamed/part_001, lines 28-47).  `cellId` is omitted
(string-valued, untouched by the modelled operations). -/
structure RunState where
  biomass : ℚ
  level : ℕ
  evolutionPoints : ℕ
  cellsCleared : ℚ
  runStartTime : ℚ
  runDuration : ℚ
  foodEaten : ℕ
  enemiesKilled : ℚ
  damageDealt : ℚ
  damageTaken : ℚ
  deriving DecidableEq, Repr

/-- PersistentState (src/unnamed/part_001, lines 52-60). -/
structure PersistentState where
  unlockedAbilities : List String
  highestLevel : ℕ
  totalCellsCleared : ℚ
  dna : ℚ
  deriving DecidableEq, Repr

/-- The mutable fields of GameStateManager, plus the trace of events it has
emitted on the bus. -/
structure GameState where
  parasiteStats : ParasiteStats
  runState : RunState
  persistentState : PersistentState
  isPaused : Bool
  isRunActive : Bool
  events : List GEvent
  deriving DecidableEq, Repr

/-- getDefaultParasiteStats (src/unnamed/part_001, lines 313-327). -/
def getDefaultParasiteStats : ParasiteStats :=
  { maxHealth := 100, health := 100, baseSize := 20, sizeMultiplier := 1
    acceleration := 1200, maxSpeed := 450, drag := 94/100, turnRate := 15/100
    damage := 10, armor := 0, detectionRadius := 0 }

/-- getDefaultRunState (src/unnamed/part_001, lines 329-343). -/
def getDefaultRunState : RunState :=
  { biomass := 0, level := 1, evolutionPoints := 0, cellsCleared := 0
    runStartTime := 0, runDuration := 0, foodEaten := 0, enemiesKilled := 0
    damageDealt := 0, damageTaken := 0 }

/-- getDefaultPersistentState (src/unnamed/part_001, lines 345-352). -/
def getDefaultPersistentState : PersistentState :=
  { unlockedAbilities := [], highestLevel := 1, totalCellsCleared := 0, dna := 0 }

/-- A fresh state as after `startRun` on a new manager: default stats and run
state, run active, no events recorded yet. -/
def freshRun : GameState :=
  { parasiteStats := getDefaultParasiteStats, runState := getDefaultRunState
    persistentState := getDefaultPersistentState
    isPaused := false, isRunActive := true, events := [] }

/-- getLevelThreshold (src/unnamed/part_001, lines 213-215):
`Math.floor(100 * Math.pow(1.5, level - 1))`. -/
def getLevelThreshold (level : ℕ) : ℤ :=
  ⌊(100 : ℚ) * (3/2 : ℚ) ^ (level - 1)⌋

/-- levelUp (src/unnamed/part_001, lines 204-208): increments level and
evolution points and emits a LEVEL_UP event carrying the new level. -/
def levelUp (gs : GameState) : GameState :=
  let newLevel := gs.runState.level + 1
  { gs with
      runState := { gs.runState with
        level := newLevel
        evolutionPoints := gs.runState.evolutionPoints + 1 }
      events := gs.events ++ [GEvent.levelUp newLevel] }

/-- addBiomass (src/unnamed/part_001, lines 190-199): adds biomass, counts
food, and levels up when the accumulated biomass reaches the threshold of
the NEXT level (`getLevelThreshold(level + 1)`). -/
def addBiomass (amount : ℚ) (gs : GameState) : GameState :=
  let gs' := { gs with
    runState := { gs.runState with
      biomass := gs.runState.biomass + amount
      foodEaten := gs.runState.foodEaten + 1 } }
  let nextLevelThreshold : ℤ := getLevelThreshold (gs'.runState.level + 1)
  if (nextLevelThreshold : ℚ) ≤ gs'.runState.biomass then levelUp gs' else gs'

/-- grow (src/unnamed/part_001, lines 220-227). -/
def grow (amount : ℚ) (gs : GameState) : GameState :=
  let oldSize := gs.parasiteStats.sizeMultiplier
  { gs with
      parasiteStats := { gs.parasiteStats with sizeMultiplier := oldSize + amount }
      events := gs.events ++ [GEvent.grew oldSize (oldSize + amount)] }

/-- shrink (src/unnamed/part_001, lines 232-239):
`sizeMultiplier = Math.max(0.5, sizeMultiplier - amount)`. -/
def shrink (amount : ℚ) (gs : GameState) : GameState :=
  let oldSize := gs.parasiteStats.sizeMultiplier
  let newSize := max (1/2 : ℚ) (oldSize - amount)
  { gs with
      parasiteStats := { gs.parasiteStats with sizeMultiplier := newSize }
      events := gs.events ++ [GEvent.shrank oldSize newSize] }

/-- endRun (src/unnamed/part_001, lines 156-176): deactivates the run, sets
the run duration from the given clock value, awards
`floor(biomass*0.1 + cellsCleared*50 + enemiesKilled*5)` DNA, folds the
level into the persistent high score, accumulates cleared cells, and emits
GAME_OVER.  (`savePersistentState` only touches localStorage.) -/
def endRun (now : ℚ) (gs : GameState) : GameState :=
  let dnaEarned : ℤ :=
    ⌊gs.runState.biomass * (1/10 : ℚ) + gs.runState.cellsCleared * 50 +
      gs.runState.enemiesKilled * 5⌋
  { gs with
      isRunActive := false
      runState := { gs.runState with runDuration := now - gs.runState.runStartTime }
      persistentState :=
        { gs.persistentState with
            dna := gs.persistentState.dna + (dnaEarned : ℚ)
            highestLevel :=
              if gs.persistentState.highestLevel < gs.runState.level then
                gs.runState.level
              else gs.persistentState.highestLevel
            totalCellsCleared :=
              gs.persistentState.totalCellsCleared + gs.runState.cellsCleared }
      events := gs.events ++ [GEvent.gameOver] }

/-- Number of LEVEL_UP events in a trace. -/
def countLevelUps (events : List GEvent) : ℕ :=
  events.countP (fun e => match e with | GEvent.levelUp _ => true | _ => false)

/-- The health-bearing fields of the Entity base class
(src/src/core/ObjectPool.ts bundle, Entity, lines 192-194); `damage` and
`heal` read and write only these. -/
structure Entity where
  health : ℚ
  maxHealth : ℚ
  deriving DecidableEq, Repr

/-- hasHealth getter (Entity, lines 223-225): `maxHealth > 0`. -/
def Entity.hasHealth (e : Entity) : Bool := decide (0 < e.maxHealth)

/-- Entity.damage (Entity, lines 241-246).  Returns the actual damage dealt
together with the updated entity. -/
def Entity.damage (e : Entity) (amount : ℚ) : ℚ × Entity :=
  if ¬ e.hasHealth = true ∨ amount ≤ 0 then (0, e)
  else
    let actualDamage := min e.health amount
    (actualDamage, { e with health := e.health - actualDamage })

/-- Entity.heal (Entity, lines 251-256).  Returns the actual healing done
together with the updated entity. -/
def Entity.heal (e : Entity) (amount : ℚ) : ℚ × Entity :=
  if ¬ e.hasHealth = true ∨ amount ≤ 0 then (0, e)
  else
    let actualHeal := min (e.maxHealth - e.health) amount
    (actualHeal, { e with health := e.health + actualHeal })

/-- The next-level threshold consulted by `addBiomass` at level 1:
`getLevelThreshold(2) = floor(100 * 1.5) = 150`. -/
theorem getLevelThreshold_two : getLevelThreshold 2 = 150 := by
  unfold getLevelThreshold
  norm_num

/-- C2 counterexample: from a fresh run (level 1, biomass 0), a single
`addBiomass(100)` brings biomass to exactly 100 yet emits NO level-up event
and leaves the level at 1, because the code compares biomass against
`getLevelThreshold(level + 1) = 150`, not against 100. -/
theorem addBiomass_100_no_levelUp :
    (addBiomass 100 freshRun).runState.biomass = 100 ∧
    countLevelUps (addBiomass 100 freshRun).events = 0 ∧
    (addBiomass 100 freshRun).runState.level = 1 := by
  have h2 : ((getLevelThreshold (1 + 1) : ℤ) : ℚ) = 150 := by
    norm_num [getLevelThreshold_two]
  simp only [addBiomass, freshRun, getDefaultRunState, countLevelUps, h2]
  norm_num

/-- C2 amended: at level 1 the threshold consulted by `addBiomass` is
`getLevelThreshold(2) = floor(100 * 1.5) = 150`.  A single `addBiomass`
from a fresh run emits exactly one LEVEL_UP event (and moves to level 2)
when the resulting biomass reaches 150, and zero events otherwise — in
particular zero when it reaches only 99 or 100. -/
theorem addBiomass_levelUp_at_150 (amount : ℚ) :
    (addBiomass amount freshRun).runState.biomass = amount ∧
    countLevelUps (addBiomass amount freshRun).events =
      (if (150 : ℚ) ≤ amount then 1 else 0) ∧
    (addBiomass amount freshRun).runState.level =
      (if (150 : ℚ) ≤ amount then 2 else 1) := by
  have h2 : ((getLevelThreshold (1 + 1) : ℤ) : ℚ) = 150 := by
    norm_num [getLevelThreshold_two]
  simp only [addBiomass, freshRun, getDefaultRunState, countLevelUps, levelUp, h2]
  norm_num
  split_ifs with h
  · exact ⟨rfl, rfl, rfl⟩
  · exact ⟨rfl, rfl, rfl⟩

/-- C7: for an entity with a health system (`maxHealth > 0`) satisfying
`0 ≤ health ≤ maxHealth`, both `damage` and `heal` preserve the invariant,
return the actual change in health, and for non-negative amounts that
change is `min(health, amount)` for damage and `min(maxHealth - health,
amount)` for heal. -/
theorem damage_heal_invariant (e : Entity) (amount : ℚ)
    (hmax : 0 < e.maxHealth) (h0 : 0 ≤ e.health) (h1 : e.health ≤ e.maxHealth) :
    (0 ≤ (e.damage amount).2.health ∧
      (e.damage amount).2.health ≤ (e.damage amount).2.maxHealth ∧
      (e.damage amount).1 = e.health - (e.damage amount).2.health ∧
      (0 ≤ amount → (e.damage amount).1 = min e.health amount)) ∧
    (0 ≤ (e.heal amount).2.health ∧
      (e.heal amount).2.health ≤ (e.heal amount).2.maxHealth ∧
      (e.heal amount).1 = (e.heal amount).2.health - e.health ∧
      (0 ≤ amount → (e.heal amount).1 = min (e.maxHealth - e.health) amount)) := by
  unfold Entity.damage Entity.heal Entity.hasHealth
  simp only [decide_eq_true_eq, not_lt]
  constructor
  · split_ifs with h
    · rcases h with h | h
      · exact absurd hmax (not_lt.mpr h)
      · refine ⟨h0, h1, by ring, fun ha => ?_⟩
        have hz : amount = 0 := le_antisymm h ha
        show (0:ℚ) = min e.health amount
        rw [hz, min_eq_right h0]
    · push_neg at h
      refine ⟨?_, ?_, ?_, fun _ => rfl⟩
      · show (0:ℚ) ≤ e.health - min e.health amount
        have := min_le_left e.health amount
        linarith
      · show e.health - min e.health amount ≤ e.maxHealth
        have : 0 ≤ min e.health amount := le_min h0 h.2.le
        linarith
      · show min e.health amount = e.health - (e.health - min e.health amount)
        ring
  · split_ifs with h
    · rcases h with h | h
      · exact absurd hmax (not_lt.mpr h)
      · refine ⟨h0, h1, by ring, fun ha => ?_⟩
        have hz : amount = 0 := le_antisymm h ha
        show (0:ℚ) = min (e.maxHealth - e.health) amount
        rw [hz, min_eq_right (by linarith : (0:ℚ) ≤ e.maxHealth - e.health)]
    · push_neg at h
      refine ⟨?_, ?_, ?_, fun _ => rfl⟩
      · show (0:ℚ) ≤ e.health + min (e.maxHealth - e.health) amount
        have : 0 ≤ min (e.maxHealth - e.health) amount := le_min (by linarith) h.2.le
        linarith
      · show e.health + min (e.maxHealth - e.health) amount ≤ e.maxHealth
        have := min_le_left (e.maxHealth - e.health) amount
        linarith
      · show min (e.maxHealth - e.health) amount =
          e.health + min (e.maxHealth - e.health) amount - e.health
        ring

/-- Witness for C7: entity with health 50 of 100, damaged and healed by 30. -/
theorem damage_heal_invariant_witness :
    ((0:ℚ) < (Entity.mk 50 100).maxHealth ∧
      (0:ℚ) ≤ (Entity.mk 50 100).health ∧
      (Entity.mk 50 100).health ≤ (Entity.mk 50 100).maxHealth) ∧
    (0 ≤ ((Entity.mk 50 100).damage 30).2.health ∧
      ((Entity.mk 50 100).damage 30).2.health ≤ ((Entity.mk 50 100).damage 30).2.maxHealth ∧
      ((Entity.mk 50 100).damage 30).1 =
        (Entity.mk 50 100).health - ((Entity.mk 50 100).damage 30).2.health ∧
      (0 ≤ (30:ℚ) → ((Entity.mk 50 100).damage 30).1 = min (Entity.mk 50 100).health 30)) ∧
    (0 ≤ ((Entity.mk 50 100).heal 30).2.health ∧
      ((Entity.mk 50 100).heal 30).2.health ≤ ((Entity.mk 50 100).heal 30).2.maxHealth ∧
      ((Entity.mk 50 100).heal 30).1 =
        ((Entity.mk 50 100).heal 30).2.health - (Entity.mk 50 100).health ∧
      (0 ≤ (30:ℚ) →
        ((Entity.mk 50 100).heal 30).1 =
          min ((Entity.mk 50 100).maxHealth - (Entity.mk 50 100).health) 30)) :=
  ⟨⟨by norm_num, by norm_num, by norm_num⟩,
    damage_heal_invariant (Entity.mk 50 100) 30 (by norm_num) (by norm_num) (by norm_num)⟩

/-- C9: `shrink` floors the size multiplier at 0.5; starting from any state
at or above the floor, the result stays at or above 0.5 and is strictly
positive. -/
theorem shrink_sizeMultiplier_floor (gs : GameState) (amount : ℚ)
    (_h : 1/2 ≤ gs.parasiteStats.sizeMultiplier) :
    1/2 ≤ (shrink amount gs).parasiteStats.sizeMultiplier ∧
    0 < (shrink amount gs).parasiteStats.sizeMultiplier := by
  unfold shrink
  exact ⟨le_max_left _ _, lt_of_lt_of_le (by norm_num) (le_max_left _ _)⟩

/-- Witness for C9: shrinking a fresh run (size 1) by 2 lands on the 0.5
floor. -/
theorem shrink_sizeMultiplier_floor_witness :
    (1/2 : ℚ) ≤ freshRun.parasiteStats.sizeMultiplier ∧
    (1/2 ≤ (shrink 2 freshRun).parasiteStats.sizeMultiplier ∧
      0 < (shrink 2 freshRun).parasiteStats.sizeMultiplier) :=
  ⟨by norm_num [freshRun, getDefaultParasiteStats],
    shrink_sizeMultiplier_floor freshRun 2
      (by norm_num [freshRun, getDefaultParasiteStats])⟩

/-- C10: `endRun` never decreases a persistent counter (for non-negative run
counters): DNA grows by `floor(biomass*0.1 + cellsCleared*50 +
enemiesKilled*5) ≥ 0`, the highest level becomes the max of the old value
and the run's level, cleared-cell totals accumulate, and the ability list
is untouched. -/
theorem endRun_persistent_monotone (now : ℚ) (gs : GameState)
    (hb : 0 ≤ gs.runState.biomass) (hc : 0 ≤ gs.runState.cellsCleared)
    (he : 0 ≤ gs.runState.enemiesKilled) :
    (endRun now gs).persistentState.dna =
      gs.persistentState.dna +
        ((⌊gs.runState.biomass * (1/10 : ℚ) + gs.runState.cellsCleared * 50 +
            gs.runState.enemiesKilled * 5⌋ : ℤ) : ℚ) ∧
    gs.persistentState.dna ≤ (endRun now gs).persistentState.dna ∧
    (endRun now gs).persistentState.highestLevel =
      max gs.persistentState.highestLevel gs.runState.level ∧
    (endRun now gs).persistentState.totalCellsCleared =
      gs.persistentState.totalCellsCleared + gs.runState.cellsCleared ∧
    gs.persistentState.totalCellsCleared ≤
      (endRun now gs).persistentState.totalCellsCleared ∧
    (endRun now gs).persistentState.unlockedAbilities =
      gs.persistentState.unlockedAbilities := by
  have hsum : (0:ℚ) ≤ gs.runState.biomass * (1/10 : ℚ) +
      gs.runState.cellsCleared * 50 + gs.runState.enemiesKilled * 5 := by
    have h1 := mul_nonneg hb (by norm_num : (0:ℚ) ≤ 1/10)
    have h2 := mul_nonneg hc (by norm_num : (0:ℚ) ≤ 50)
    have h3 := mul_nonneg he (by norm_num : (0:ℚ) ≤ 5)
    linarith
  have hfloorQ : (0:ℚ) ≤ ((⌊gs.runState.biomass * (1/10 : ℚ) +
      gs.runState.cellsCleared * 50 + gs.runState.enemiesKilled * 5⌋ : ℤ) : ℚ) := by
    exact_mod_cast Int.floor_nonneg.mpr hsum
  unfold endRun
  refine ⟨rfl, le_add_of_nonneg_right hfloorQ, ?_, rfl,
    le_add_of_nonneg_right hc, rfl⟩
  simp only
  split_ifs with h
  · exact (max_eq_right h.le).symm
  · exact (max_eq_left (not_lt.mp h)).symm

/-- Witness for C10: ending a fresh run that gained 42 biomass, at clock
1000. -/
theorem endRun_persistent_monotone_witness :
    ((0:ℚ) ≤ (addBiomass 42 freshRun).runState.biomass ∧
      (0:ℚ) ≤ (addBiomass 42 freshRun).runState.cellsCleared ∧
      (0:ℚ) ≤ (addBiomass 42 freshRun).runState.enemiesKilled) ∧
    (endRun 1000 (addBiomass 42 freshRun)).persistentState.dna =
      (addBiomass 42 freshRun).persistentState.dna +
        ((⌊(addBiomass 42 freshRun).runState.biomass * (1/10 : ℚ) +
            (addBiomass 42 freshRun).runState.cellsCleared * 50 +
            (addBiomass 42 freshRun).runState.enemiesKilled * 5⌋ : ℤ) : ℚ) ∧
    (addBiomass 42 freshRun).persistentState.dna ≤
      (endRun 1000 (addBiomass 42 freshRun)).persistentState.dna ∧
    (endRun 1000 (addBiomass 42 freshRun)).persistentState.highestLevel =
      max (addBiomass 42 freshRun).persistentState.highestLevel
        (addBiomass 42 freshRun).runState.level ∧
    (endRun 1000 (addBiomass 42 freshRun)).persistentState.totalCellsCleared =
      (addBiomass 42 freshRun).persistentState.totalCellsCleared +
        (addBiomass 42 freshRun).runState.cellsCleared ∧
    (addBiomass 42 freshRun).persistentState.totalCellsCleared ≤
      (endRun 1000 (addBiomass 42 freshRun)).persistentState.totalCellsCleared ∧
    (endRun 1000 (addBiomass 42 freshRun)).persistentState.unlockedAbilities =
      (addBiomass 42 freshRun).persistentState.unlockedAbilities := by
  have hstate : (addBiomass 42 freshRun).runState.biomass = 42 ∧
      (addBiomass 42 freshRun).runState.cellsCleared = 0 ∧
      (addBiomass 42 freshRun).runState.enemiesKilled = 0 := by
    have h2 : ((getLevelThreshold (1 + 1) : ℤ) : ℚ) = 150 := by
      norm_num [getLevelThreshold_two]
    simp only [addBiomass, freshRun, getDefaultRunState, h2]
    norm_num
  exact ⟨⟨by rw [hstate.1]; norm_num, by rw [hstate.2.1], by rw [hstate.2.2]⟩,
    endRun_persistent_monotone 1000 (addBiomass 42 freshRun)
      (by rw [hstate.1]; norm_num) (by rw [hstate.2.1]) (by rw [hstate.2.2])⟩

/-- Position and velocity of the controlled entity, as mutated by
`GameScene.enforceBoundaries`. -/
structure Body where
  x : ℚ
  y : ℚ
  vx : ℚ
  vy : ℚ
  deriving DecidableEq, Repr

/-- GameScene.enforceBoundaries (src/src/entities/Parasite.ts, lines
545-572, and src/unnamed/part_000, lines 184-211), parametrised by the
world size, margin and bounce factor the two variants hard-code.  Four
sequential (non-exclusive) wall checks; each clamps the coordinate and sets
the perpendicular velocity to `±Math.abs(v) * bounceFactor`, directed into
the arena.  The `hitWall` flag only drives visual feedback and is not
modelled. -/
def enforceBoundaries (worldWidth worldHeight margin bounceFactor : ℚ)
    (b : Body) : Body :=
  let b1 := if b.x < margin then
    { b with x := margin, vx := |b.vx| * bounceFactor } else b
  let b2 := if b1.x > worldWidth - margin then
    { b1 with x := worldWidth - margin, vx := -|b1.vx| * bounceFactor } else b1
  let b3 := if b2.y < margin then
    { b2 with y := margin, vy := |b2.vy| * bounceFactor } else b2
  let b4 := if b3.y > worldHeight - margin then
    { b3 with y := worldHeight - margin, vy := -|b3.vy| * bounceFactor } else b3
  b4

theorem enforceBoundaries_x (W H margin f : ℚ) (b : Body)
    (hW : margin ≤ W - margin) :
    (enforceBoundaries W H margin f b).x =
      if b.x < margin then margin
      else if W - margin < b.x then W - margin else b.x := by
  rcases lt_or_le b.x margin with h1 | h1
  · simp [enforceBoundaries, h1, not_lt.mpr hW, apply_ite Body.x]
  · rcases lt_or_le (W - margin) b.x with h2 | h2
    · simp [enforceBoundaries, not_lt.mpr h1, h2, apply_ite Body.x]
    · simp [enforceBoundaries, not_lt.mpr h1, not_lt.mpr h2, apply_ite Body.x]

theorem enforceBoundaries_vx (W H margin f : ℚ) (b : Body)
    (hW : margin ≤ W - margin) :
    (enforceBoundaries W H margin f b).vx =
      if b.x < margin then |b.vx| * f
      else if W - margin < b.x then -|b.vx| * f else b.vx := by
  rcases lt_or_le b.x margin with h1 | h1
  · simp [enforceBoundaries, h1, not_lt.mpr hW, apply_ite Body.vx]
  · rcases lt_or_le (W - margin) b.x with h2 | h2
    · simp [enforceBoundaries, not_lt.mpr h1, h2, apply_ite Body.vx]
    · simp [enforceBoundaries, not_lt.mpr h1, not_lt.mpr h2, apply_ite Body.vx]

theorem enforceBoundaries_y (W H margin f : ℚ) (b : Body)
    (hH : margin ≤ H - margin) :
    (enforceBoundaries W H margin f b).y =
      if b.y < margin then margin
      else if H - margin < b.y then H - margin else b.y := by
  rcases lt_or_le b.y margin with h1 | h1
  · simp [enforceBoundaries, h1, not_lt.mpr hH, apply_ite Body.y]
  · rcases lt_or_le (H - margin) b.y with h2 | h2
    · simp [enforceBoundaries, not_lt.mpr h1, h2, apply_ite Body.y]
    · simp [enforceBoundaries, not_lt.mpr h1, not_lt.mpr h2, apply_ite Body.y]

theorem enforceBoundaries_vy (W H margin f : ℚ) (b : Body)
    (hH : margin ≤ H - margin) :
    (enforceBoundaries W H margin f b).vy =
      if b.y < margin then |b.vy| * f
      else if H - margin < b.y then -|b.vy| * f else b.vy := by
  rcases lt_or_le b.y margin with h1 | h1
  · simp [enforceBoundaries, h1, not_lt.mpr hH, apply_ite Body.y, apply_ite Body.vy]
  · rcases lt_or_le (H - margin) b.y with h2 | h2
    · simp [enforceBoundaries, not_lt.mpr h1, h2, apply_ite Body.y, apply_ite Body.vy]
    · simp [enforceBoundaries, not_lt.mpr h1, not_lt.mpr h2, apply_ite Body.y, apply_ite Body.vy]

/-- C4 counterexample: with the constants of src/src/entities/Parasite.ts
(world 3000x3000, margin = PARASITE_RADIUS + WALL_THICKNESS/2 = 24, bounce
factor 0.4), an entity clamped at the left wall while moving AWAY from it
(x = 0, vx = 5) keeps a positive vx of |5| * 0.4 = 2 instead of the
sign-flipped -5 * 0.4 = -2 the claim requires. -/
theorem enforceBoundaries_no_sign_flip :
    (enforceBoundaries 3000 3000 24 (2/5) (Body.mk 0 100 5 0)).vx = 2 ∧
    (enforceBoundaries 3000 3000 24 (2/5) (Body.mk 0 100 5 0)).vx ≠
      -(5 : ℚ) * (2/5) := by
  rw [enforceBoundaries_vx 3000 3000 24 (2/5) (Body.mk 0 100 5 0) (by norm_num)]
  norm_num

/-- C4 amended: after `enforceBoundaries` the position always lies within
`[margin, worldWidth - margin] x [margin, worldHeight - margin]` (whenever
the margins leave a legal band), and a wall hit sets the perpendicular
velocity component to `bounceFactor * |v|` directed away from the wall —
equal to the claimed exact sign-flip-and-scale whenever the component
pointed into the wall, but not when it pointed away from it. -/
theorem enforceBoundaries_containment_and_bounce
    (W H margin f : ℚ) (b : Body)
    (hW : margin ≤ W - margin) (hH : margin ≤ H - margin) :
    (margin ≤ (enforceBoundaries W H margin f b).x ∧
      (enforceBoundaries W H margin f b).x ≤ W - margin ∧
      margin ≤ (enforceBoundaries W H margin f b).y ∧
      (enforceBoundaries W H margin f b).y ≤ H - margin) ∧
    (b.x < margin → (enforceBoundaries W H margin f b).vx = |b.vx| * f) ∧
    (b.x < margin → b.vx ≤ 0 →
      (enforceBoundaries W H margin f b).vx = -b.vx * f) ∧
    (W - margin < b.x → (enforceBoundaries W H margin f b).vx = -|b.vx| * f) ∧
    (W - margin < b.x → 0 ≤ b.vx →
      (enforceBoundaries W H margin f b).vx = -(b.vx * f)) ∧
    (b.y < margin → (enforceBoundaries W H margin f b).vy = |b.vy| * f) ∧
    (b.y < margin → b.vy ≤ 0 →
      (enforceBoundaries W H margin f b).vy = -b.vy * f) ∧
    (H - margin < b.y → (enforceBoundaries W H margin f b).vy = -|b.vy| * f) ∧
    (H - margin < b.y → 0 ≤ b.vy →
      (enforceBoundaries W H margin f b).vy = -(b.vy * f)) := by
  rw [enforceBoundaries_x W H margin f b hW, enforceBoundaries_vx W H margin f b hW,
    enforceBoundaries_y W H margin f b hH, enforceBoundaries_vy W H margin f b hH]
  refine ⟨⟨?_, ?_, ?_, ?_⟩, ?_, ?_, ?_, ?_, ?_, ?_, ?_, ?_⟩
  · split_ifs <;> linarith
  · split_ifs <;> linarith
  · split_ifs <;> linarith
  · split_ifs <;> linarith
  · intro h
    rw [if_pos h]
  · intro h hv
    rw [if_pos h, abs_of_nonpos hv]
  · intro h
    rw [if_neg (not_lt.mpr (by linarith)), if_pos h]
  · intro h hv
    rw [if_neg (not_lt.mpr (by linarith)), if_pos h, abs_of_nonneg hv]
    ring
  · intro h
    rw [if_pos h]
  · intro h hv
    rw [if_pos h, abs_of_nonpos hv]
  · intro h
    rw [if_neg (not_lt.mpr (by linarith)), if_pos h]
  · intro h hv
    rw [if_neg (not_lt.mpr (by linarith)), if_pos h, abs_of_nonneg hv]
    ring

/-- Witness for C4 amended: the CONFIG constants and an entity outside the
left wall moving into it. -/
theorem enforceBoundaries_containment_witness :
    ((24 : ℚ) ≤ 3000 - 24 ∧ (24 : ℚ) ≤ 3000 - 24) ∧
    (24 ≤ (enforceBoundaries 3000 3000 24 (2/5) (Body.mk 0 100 (-50) 7)).x ∧
      (enforceBoundaries 3000 3000 24 (2/5) (Body.mk 0 100 (-50) 7)).x ≤ 3000 - 24 ∧
      24 ≤ (enforceBoundaries 3000 3000 24 (2/5) (Body.mk 0 100 (-50) 7)).y ∧
      (enforceBoundaries 3000 3000 24 (2/5) (Body.mk 0 100 (-50) 7)).y ≤ 3000 - 24) ∧
    (enforceBoundaries 3000 3000 24 (2/5) (Body.mk 0 100 (-50) 7)).vx =
      -(-50 : ℚ) * (2/5) := by
  have hW : (24 : ℚ) ≤ 3000 - 24 := by norm_num
  have main := enforceBoundaries_containment_and_bounce 3000 3000 24 (2/5)
    (Body.mk 0 100 (-50) 7) hW hW
  exact ⟨⟨hW, hW⟩, main.1,
    main.2.2.1 (by norm_num) (by norm_num)⟩

/-- An entry of the generic spatial hash (`T extends Circle x, y`): a distinct
object reference with a position.  The `id` models JavaScript object
identity. -/
structure Ent where
  id : ℕ
  x : ℚ
  y : ℚ
  deriving DecidableEq, Repr

/-- JavaScript default stringification of a plain object, as performed by the
template literals in `getPotentialPairs`: every entity prints as
"[object Object]". -/
def jsToString (_ : Ent) : String := "[object Object]"

/-- The cells map of SpatialHash (src/src/core/Collision.ts, line 205),
modelled as an association list in JS `Map` insertion order. -/
abbrev SpatialHashCells : Type := List (String × List Ent)

/-- SpatialHash.getKey (src/src/core/Collision.ts, lines 221-225). -/
def SpatialHash.getKey (cellSize : ℚ) (x y : ℚ) : String :=
  toString ⌊x / cellSize⌋ ++ "," ++ toString ⌊y / cellSize⌋

/-- SpatialHash.insert (src/src/core/Collision.ts, lines 230-236): append the
entity to its cell's list, creating the cell if absent. -/
def SpatialHash.insert (cellSize : ℚ) (h : SpatialHashCells) (e : Ent) :
    SpatialHashCells :=
  let key := SpatialHash.getKey cellSize e.x e.y
  if (h.map Prod.fst).contains key then
    h.map (fun c => if c.1 = key then (c.1, c.2 ++ [e]) else c)
  else
    h ++ [(key, [e])]

/-- All index-ordered pairs (i < j) of one cell's list — the nested loops of
`getPotentialPairs`. -/
def ordPairs : List Ent → List (Ent × Ent)
  | [] => []
  | a :: rest => rest.map (fun b => (a, b)) ++ ordPairs rest

/-- JavaScript string comparison (lexicographic by UTF-16 code unit), used
by the abstract relational comparison `a < b` after both objects are
coerced to strings. -/
def jsStrLt : List Char → List Char → Bool
  | [], [] => false
  | [], _ :: _ => true
  | _ :: _, [] => false
  | a :: as, b :: bs =>
    if a.val < b.val then true
    else if b.val < a.val then false
    else jsStrLt as bs

/-- The dedup key of `getPotentialPairs` (src/src/core/Collision.ts, line
302): `a < b ? a-b : b-a` via template-literal stringification.  Both JS
comparison and interpolation stringify the objects, so every pair yields
the same key. -/
def pairKey (a b : Ent) : String :=
  if jsStrLt (jsToString a).data (jsToString b).data then
    jsToString a ++ "-" ++ jsToString b
  else jsToString b ++ "-" ++ jsToString a

/-- SpatialHash.getPotentialPairs (src/src/core/Collision.ts, lines
292-312): walk the cells in order, enumerate index-ordered pairs, and skip
any pair whose string key was already seen. -/
def SpatialHash.getPotentialPairs (h : SpatialHashCells) : List (Ent × Ent) :=
  (h.foldl
    (fun acc cell =>
      (ordPairs cell.2).foldl
        (fun acc p =>
          let key := pairKey p.1 p.2
          if key ∈ acc.1 then acc else (key :: acc.1, acc.2 ++ [p]))
        acc)
    ([], [])).2

/-- Whether two entities occupy a common cell of the hash. -/
def sharesCell (h : SpatialHashCells) (a b : Ent) : Bool :=
  h.any (fun c => a ∈ c.2 && b ∈ c.2)

/-- C1: three distinct entities inserted at the same position share one cell
and form three unordered pairs, but `getPotentialPairs` returns only the
first: every pair's dedup key stringifies to
"[object Object]-[object Object]", so after the first pair all others are
skipped.  In particular the cell-sharing pair (e1, e3) is missing. -/
theorem getPotentialPairs_drops_pairs :
    SpatialHash.getPotentialPairs
        (SpatialHash.insert 100
          (SpatialHash.insert 100
            (SpatialHash.insert 100 [] (Ent.mk 1 0 0))
            (Ent.mk 2 0 0))
          (Ent.mk 3 0 0)) =
      [(Ent.mk 1 0 0, Ent.mk 2 0 0)] ∧
    sharesCell
        (SpatialHash.insert 100
          (SpatialHash.insert 100
            (SpatialHash.insert 100 [] (Ent.mk 1 0 0))
            (Ent.mk 2 0 0))
          (Ent.mk 3 0 0))
        (Ent.mk 1 0 0) (Ent.mk 3 0 0) = true ∧
    (Ent.mk 1 0 0, Ent.mk 3 0 0) ∉
      SpatialHash.getPotentialPairs
        (SpatialHash.insert 100
          (SpatialHash.insert 100
            (SpatialHash.insert 100 [] (Ent.mk 1 0 0))
            (Ent.mk 2 0 0))
          (Ent.mk 3 0 0)) ∧
    (Ent.mk 3 0 0, Ent.mk 1 0 0) ∉
      SpatialHash.getPotentialPairs
        (SpatialHash.insert 100
          (SpatialHash.insert 100
            (SpatialHash.insert 100 [] (Ent.mk 1 0 0))
            (Ent.mk 2 0 0))
          (Ent.mk 3 0 0)) := by
  have hkey : SpatialHash.getKey 100 0 0 = "0,0" := by
    unfold SpatialHash.getKey
    norm_num
    rfl
  have h1 : SpatialHash.insert 100 [] (Ent.mk 1 0 0) =
      [("0,0", [Ent.mk 1 0 0])] := by
    simp [SpatialHash.insert, hkey]
  have h2 : SpatialHash.insert 100 [("0,0", [Ent.mk 1 0 0])] (Ent.mk 2 0 0) =
      [("0,0", [Ent.mk 1 0 0, Ent.mk 2 0 0])] := by
    simp [SpatialHash.insert, hkey]
  have h3 : SpatialHash.insert 100
        [("0,0", [Ent.mk 1 0 0, Ent.mk 2 0 0])] (Ent.mk 3 0 0) =
      [("0,0", [Ent.mk 1 0 0, Ent.mk 2 0 0, Ent.mk 3 0 0])] := by
    simp [SpatialHash.insert, hkey]
  rw [h1, h2, h3]
  decide

/-- EventSubscription (src/src/core/Events.ts, lines 73-77).  Event types
and handler identities are abstracted as naturals; a handler's observable
behaviour during dispatch is the (fixed) list of events it publishes
reentrantly via `Events.emit`. -/
structure EventSubscription where
  etype : ℕ
  hid : ℕ
  emits : List ℕ
  once : Bool
  deriving DecidableEq, Repr

/-- EventBus state (src/src/core/Events.ts, lines 83-86): the subscription
table (the per-type `Map` arrays are modelled as one insertion-ordered list
filtered by type, which preserves per-type order), the FIFO event queue,
the `processing` flag, and the trace of handler invocations (event type,
handler id) in the order they occurred. -/
structure EventBus where
  subs : List EventSubscription
  eventQueue : List ℕ
  processing : Bool
  trace : List (ℕ × ℕ)
  deriving DecidableEq, Repr

/-- `this.subscriptions.get(type)`: the subscriptions of one event type, in
subscription order. -/
def subsFor (e : ℕ) : List EventSubscription → List EventSubscription
  | [] => []
  | s :: rest => if s.etype = e then s :: subsFor e rest else subsFor e rest

/-- `subs.splice(subs.indexOf(sub), 1)`: remove the first occurrence. -/
def removeFirst (s : EventSubscription) :
    List EventSubscription → List EventSubscription
  | [] => []
  | t :: rest => if t = s then rest else t :: removeFirst s rest

/-- The inner `for (const sub of subsToCall)` loop of
EventBus.processQueue (src/src/core/Events.ts, lines 164-176): invoke each
handler of the snapshot (recording the invocation and appending the
handler's own `emit`s to the queue — reentrant emits find `processing`
true and only enqueue), then drop one-time subscriptions from the live
list. -/
def runSnapshot (e : ℕ) : List EventSubscription → EventBus → EventBus
  | [], bus => bus
  | s :: rest, bus =>
    runSnapshot e rest
      { bus with
          trace := bus.trace ++ [(e, s.hid)]
          eventQueue := bus.eventQueue ++ s.emits
          subs := if s.once then removeFirst s bus.subs else bus.subs }

/-- The `while (this.eventQueue.length > 0)` loop of
EventBus.processQueue (src/src/core/Events.ts, lines 158-178), with
explicit fuel: shift the oldest event, snapshot its subscriber list, run
the handlers; clear `processing` once the queue is empty.  The modelled
scenarios terminate well within the supplied fuel. -/
def processLoop : ℕ → EventBus → EventBus
  | 0, bus => bus
  | fuel + 1, bus =>
    match bus.eventQueue with
    | [] => { bus with processing := false }
    | e :: rest =>
      processLoop fuel
        (runSnapshot e (subsFor e bus.subs) { bus with eventQueue := rest })

/-- EventBus.processQueue (src/src/core/Events.ts, lines 155-181): set
`processing` and drain. -/
def processQueue (fuel : ℕ) (bus : EventBus) : EventBus :=
  processLoop fuel { bus with processing := true }

/-- EventBus.emit (src/src/core/Events.ts, lines 143-150): enqueue the
event; start a drain only when none is in progress. -/
def emit (fuel : ℕ) (e : ℕ) (bus : EventBus) : EventBus :=
  let bus' := { bus with eventQueue := bus.eventQueue ++ [e] }
  if bus'.processing then bus' else processQueue fuel bus'

/-- C3 counterexample: event types A = 0, B = 1, C = 2 with handlers 10, 11,
12, where A's handler publishes C.  Two TOP-LEVEL publishes `emit A;
emit B` invoke the handlers in order A, C, B — the first `emit` drains C
before returning, so the claimed order A, B, C ("never A, C, B") is
violated. -/
theorem emit_top_level_order_ACB :
    (emit 9 1 (emit 9 0
      (EventBus.mk
        [EventSubscription.mk 0 10 [2] false,
          EventSubscription.mk 1 11 [] false,
          EventSubscription.mk 2 12 [] false]
        [] false []))).trace = [(0, 10), (2, 12), (1, 11)] := by
  decide

/-- C3 amended: reentrant publishes enqueue rather than recurse and the
queue drains strictly FIFO, so the order A, B, C is obtained exactly when
A and B are both enqueued before the drain reaches A — e.g. when both are
published from inside a handler during one drain.  Here a driver event D's
handler publishes A then B, A's handler publishes C, and the invocation
order is D, A, B, C: C is drained after all earlier-queued events but
before the original top-level `emit` returns.  With A and B published
sequentially at top level the order is instead A, C, B (see the
counterexample). -/
theorem emit_reentrant_fifo_order (a b c d hA hB hC hD : ℕ)
    (hab : a ≠ b) (hac : a ≠ c) (hbc : b ≠ c)
    (had : a ≠ d) (hbd : b ≠ d) (hcd : c ≠ d) :
    (emit 9 d
      (EventBus.mk
        [EventSubscription.mk d hD [a, b] false,
          EventSubscription.mk a hA [c] false,
          EventSubscription.mk b hB [] false,
          EventSubscription.mk c hC [] false]
        [] false [])).trace =
      [(d, hD), (a, hA), (b, hB), (c, hC)] := by
  simp [emit, processQueue, processLoop, subsFor, runSnapshot,
    hab, hac, hbc, had, hbd, hcd,
    Ne.symm hab, Ne.symm hac, Ne.symm hbc, Ne.symm had, Ne.symm hbd, Ne.symm hcd]

/-- Witness for C3 amended: concrete event types 0, 1, 2 with driver 3. -/
theorem emit_reentrant_fifo_order_witness :
    ((0 : ℕ) ≠ 1 ∧ (0 : ℕ) ≠ 2 ∧ (1 : ℕ) ≠ 2 ∧
      (0 : ℕ) ≠ 3 ∧ (1 : ℕ) ≠ 3 ∧ (2 : ℕ) ≠ 3) ∧
    (emit 9 3
      (EventBus.mk
        [EventSubscription.mk 3 13 [0, 1] false,
          EventSubscription.mk 0 10 [2] false,
          EventSubscription.mk 1 11 [] false,
          EventSubscription.mk 2 12 [] false]
        [] false [])).trace =
      [(3, 13), (0, 10), (1, 11), (2, 12)] :=
  ⟨⟨by decide, by decide, by decide, by decide, by decide, by decide⟩,
    emit_reentrant_fifo_order 0 1 2 3 10 11 12 13
      (by decide) (by decide) (by decide) (by decide) (by decide) (by decide)⟩

/-- The kinematic fields of the Parasite entity
(src/src/entities/Parasite.ts): position, velocity and the pending
acceleration accumulated by `applyForce`.  JS numbers are modelled as
reals here because the update path uses `Math.sqrt` and `Math.pow`. -/
@[ext]
structure ParasiteState where
  x : ℝ
  y : ℝ
  vx : ℝ
  vy : ℝ
  ax : ℝ
  ay : ℝ

/-- Phaser `Vector2.length()`: `Math.sqrt(x*x + y*y)`. -/
noncomputable def speedOf (vx vy : ℝ) : ℝ :=
  Real.sqrt (vx * vx + vy * vy)

/-- The frame-rate-independent drag factor of Parasite.update
(src/src/entities/Parasite.ts, lines 140-142):
`Math.pow(drag, delta / 16.667)`. -/
noncomputable def dragFactor (drag dt : ℝ) : ℝ :=
  drag ^ (dt / 16.667)

/-- The max-speed clamp of Parasite.update (lines 146-150):
`if (speed > maxSpeed) velocity.normalize().scale(maxSpeed)`.  When the
branch is taken with speed 0 (only possible for negative maxSpeed) Phaser
leaves the zero vector unchanged and scaling gives 0 — which coincides
with Lean's `x / 0 = 0` convention, so no extra guard is needed. -/
noncomputable def clampVelocity (maxSpeed vx vy : ℝ) : ℝ × ℝ :=
  if speedOf vx vy > maxSpeed then
    (vx / speedOf vx vy * maxSpeed, vy / speedOf vx vy * maxSpeed)
  else (vx, vy)

/-- GameStateManager.effectiveMaxSpeed (src/unnamed/part_001, lines
123-126): `maxSpeed * (1 / Math.sqrt(sizeMultiplier))`. -/
noncomputable def effectiveMaxSpeed (maxSpeed sizeMultiplier : ℝ) : ℝ :=
  maxSpeed * (1 / Real.sqrt sizeMultiplier)

/-- Parasite.update kinematics (src/src/entities/Parasite.ts, lines
107-166) with the pointer branch inactive: add the global force and the
pending acceleration (both scaled by dt/1000, a pointer-input term would
be one more additive pre-drag contribution), zero the acceleration, apply
the drag factor, clamp to the max speed, zero-snap when the (recomputed)
speed is below 1, and integrate the position.  Trail/visual code and the
health sync are outside the kinematics and not modelled. -/
noncomputable def Parasite.update (drag maxSpeed dt gx gy : ℝ)
    (p : ParasiteState) : ParasiteState :=
  let vx1 := p.vx + gx * (dt / 1000) + p.ax * (dt / 1000)
  let vy1 := p.vy + gy * (dt / 1000) + p.ay * (dt / 1000)
  let vx2 := vx1 * dragFactor drag dt
  let vy2 := vy1 * dragFactor drag dt
  let v3 := clampVelocity maxSpeed vx2 vy2
  let v4 := if speedOf v3.1 v3.2 < 1 then ((0 : ℝ), (0 : ℝ)) else v3
  { x := p.x + v4.1 * (dt / 1000), y := p.y + v4.2 * (dt / 1000)
    vx := v4.1, vy := v4.2, ax := 0, ay := 0 }

theorem speedOf_nonneg (vx vy : ℝ) : 0 ≤ speedOf vx vy :=
  Real.sqrt_nonneg _

theorem speedOf_zero : speedOf 0 0 = 0 := by
  unfold speedOf
  norm_num

theorem speedOf_mul_right (vx vy c : ℝ) (hc : 0 ≤ c) :
    speedOf (vx * c) (vy * c) = speedOf vx vy * c := by
  unfold speedOf
  rw [show vx * c * (vx * c) + vy * c * (vy * c) =
    (vx * vx + vy * vy) * (c * c) by ring]
  rw [Real.sqrt_mul (add_nonneg (mul_self_nonneg vx) (mul_self_nonneg vy)),
    Real.sqrt_mul_self hc]

theorem speedOf_axis (v : ℝ) (hv : 0 ≤ v) : speedOf v 0 = v := by
  unfold speedOf
  rw [mul_zero, add_zero, Real.sqrt_mul_self hv]

theorem clampVelocity_speed_le (M vx vy : ℝ) (hM : 0 < M) :
    speedOf (clampVelocity M vx vy).1 (clampVelocity M vx vy).2 ≤ M := by
  unfold clampVelocity
  split_ifs with h
  · have hs : 0 < speedOf vx vy := lt_trans hM h
    dsimp only
    rw [show vx / speedOf vx vy * M = vx * (M / speedOf vx vy) by ring,
      show vy / speedOf vx vy * M = vy * (M / speedOf vx vy) by ring,
      speedOf_mul_right _ _ _ (by positivity), mul_comm,
      div_mul_cancel₀ _ (ne_of_gt hs)]
  · exact not_lt.mp h

/-- C6: with `effectiveMaxSpeed = maxSpeed / sqrt(sizeMultiplier)` positive,
the speed immediately after one `Parasite.update` step never exceeds
`effectiveMaxSpeed` (with ε = 0), for every prior velocity, pending
acceleration and global force; and whenever the pre-clamp speed exceeds
the limit, the clamp rescales the velocity to exactly `effectiveMaxSpeed`
in the same direction (the positive multiple `M/speed` of the pre-clamp
vector), which is also the step's final velocity when the limit is at
least the zero-snap threshold 1. -/
theorem update_speed_clamp_exact (drag ms sm dt gx gy : ℝ) (p : ParasiteState)
    (hms : 0 < ms) (hsm : 0 < sm) :
    speedOf (Parasite.update drag (effectiveMaxSpeed ms sm) dt gx gy p).vx
        (Parasite.update drag (effectiveMaxSpeed ms sm) dt gx gy p).vy ≤
      effectiveMaxSpeed ms sm ∧
    (∀ wx wy,
      wx = (p.vx + gx * (dt / 1000) + p.ax * (dt / 1000)) * dragFactor drag dt →
      wy = (p.vy + gy * (dt / 1000) + p.ay * (dt / 1000)) * dragFactor drag dt →
      effectiveMaxSpeed ms sm < speedOf wx wy →
        clampVelocity (effectiveMaxSpeed ms sm) wx wy =
          (wx / speedOf wx wy * effectiveMaxSpeed ms sm,
            wy / speedOf wx wy * effectiveMaxSpeed ms sm) ∧
        speedOf (wx / speedOf wx wy * effectiveMaxSpeed ms sm)
            (wy / speedOf wx wy * effectiveMaxSpeed ms sm) =
          effectiveMaxSpeed ms sm ∧
        (1 ≤ effectiveMaxSpeed ms sm →
          (Parasite.update drag (effectiveMaxSpeed ms sm) dt gx gy p).vx =
            wx / speedOf wx wy * effectiveMaxSpeed ms sm ∧
          (Parasite.update drag (effectiveMaxSpeed ms sm) dt gx gy p).vy =
            wy / speedOf wx wy * effectiveMaxSpeed ms sm)) := by
  have hM : 0 < effectiveMaxSpeed ms sm := by
    unfold effectiveMaxSpeed
    exact mul_pos hms (div_pos one_pos (Real.sqrt_pos.mpr hsm))
  constructor
  · unfold Parasite.update
    dsimp only
    split_ifs with h
    · rw [speedOf_zero]
      exact hM.le
    · exact clampVelocity_speed_le _ _ _ hM
  · intro wx wy hwx hwy hgt
    have hs : 0 < speedOf wx wy := lt_trans hM hgt
    have hclamp : clampVelocity (effectiveMaxSpeed ms sm) wx wy =
        (wx / speedOf wx wy * effectiveMaxSpeed ms sm,
          wy / speedOf wx wy * effectiveMaxSpeed ms sm) := by
      unfold clampVelocity
      rw [if_pos hgt]
    have hspeedeq : speedOf (wx / speedOf wx wy * effectiveMaxSpeed ms sm)
        (wy / speedOf wx wy * effectiveMaxSpeed ms sm) = effectiveMaxSpeed ms sm := by
      rw [show wx / speedOf wx wy * effectiveMaxSpeed ms sm =
          wx * (effectiveMaxSpeed ms sm / speedOf wx wy) by ring,
        show wy / speedOf wx wy * effectiveMaxSpeed ms sm =
          wy * (effectiveMaxSpeed ms sm / speedOf wx wy) by ring,
        speedOf_mul_right _ _ _ (by positivity), mul_comm,
        div_mul_cancel₀ _ (ne_of_gt hs)]
    refine ⟨hclamp, hspeedeq, fun h1 => ?_⟩
    unfold Parasite.update
    dsimp only
    rw [← hwx, ← hwy, hclamp]
    dsimp only
    rw [hspeedeq, if_neg (not_lt.mpr h1)]
    exact ⟨rfl, rfl⟩

/-- Witness for C6: default stats (maxSpeed 450, sizeMultiplier 1) and an
entity already moving at speed 1000. -/
theorem update_speed_clamp_exact_witness :
    (0 : ℝ) < 450 ∧ (0 : ℝ) < 1 ∧
    speedOf
        (Parasite.update (94/100) (effectiveMaxSpeed 450 1) (16667/1000) 0 0
          (ParasiteState.mk 0 0 1000 0 0 0)).vx
        (Parasite.update (94/100) (effectiveMaxSpeed 450 1) (16667/1000) 0 0
          (ParasiteState.mk 0 0 1000 0 0 0)).vy ≤
      effectiveMaxSpeed 450 1 :=
  ⟨by norm_num, by norm_num,
    (update_speed_clamp_exact (94/100) 450 1 (16667/1000) 0 0
      (ParasiteState.mk 0 0 1000 0 0 0) (by norm_num) (by norm_num)).1⟩

theorem dragFactor_pos (drag dt : ℝ) (hd : 0 < drag) : 0 < dragFactor drag dt :=
  Real.rpow_pos_of_pos hd _

theorem dragFactor_le_one (drag dt : ℝ) (hd0 : 0 < drag) (hd1 : drag ≤ 1)
    (hdt : 0 ≤ dt) : dragFactor drag dt ≤ 1 :=
  Real.rpow_le_one hd0.le hd1 (div_nonneg hdt (by norm_num))

theorem dragFactor_two_mul (drag dt : ℝ) (hd : 0 < drag) :
    dragFactor drag (2 * dt) = dragFactor drag dt * dragFactor drag dt := by
  unfold dragFactor
  rw [show (2 * dt) / 16.667 = dt / 16.667 + dt / 16.667 by ring,
    Real.rpow_add hd]

/-- Evaluation of one `Parasite.update` step with zero global force and zero
pending acceleration, when the post-drag speed is within the clamp. -/
theorem update_eval (drag M dt : ℝ) (p : ParasiteState)
    (hax : p.ax = 0) (hay : p.ay = 0)
    (hnc : speedOf (p.vx * dragFactor drag dt) (p.vy * dragFactor drag dt) ≤ M) :
    (Parasite.update drag M dt 0 0 p).vx =
      (if speedOf (p.vx * dragFactor drag dt) (p.vy * dragFactor drag dt) < 1
        then 0 else p.vx * dragFactor drag dt) ∧
    (Parasite.update drag M dt 0 0 p).vy =
      (if speedOf (p.vx * dragFactor drag dt) (p.vy * dragFactor drag dt) < 1
        then 0 else p.vy * dragFactor drag dt) ∧
    (Parasite.update drag M dt 0 0 p).x =
      p.x + (if speedOf (p.vx * dragFactor drag dt) (p.vy * dragFactor drag dt) < 1
        then 0 else p.vx * dragFactor drag dt) * (dt / 1000) ∧
    (Parasite.update drag M dt 0 0 p).y =
      p.y + (if speedOf (p.vx * dragFactor drag dt) (p.vy * dragFactor drag dt) < 1
        then 0 else p.vy * dragFactor drag dt) * (dt / 1000) := by
  unfold Parasite.update clampVelocity
  dsimp only
  rw [hax, hay,
    show p.vx + 0 * (dt / 1000) + 0 * (dt / 1000) = p.vx by ring,
    show p.vy + 0 * (dt / 1000) + 0 * (dt / 1000) = p.vy by ring,
    if_neg (not_lt.mpr hnc)]
  by_cases hc : speedOf (p.vx * dragFactor drag dt) (p.vy * dragFactor drag dt) < 1
  · simp only [if_pos hc]
    refine ⟨?_, ?_, ?_, ?_⟩ <;> trivial
  · simp only [if_neg hc]
    refine ⟨?_, ?_, ?_, ?_⟩ <;> trivial

/-- C5 amended: given zero forces and zero pending acceleration, drag in
(0,1], dt ≥ 0, and an initial speed within the clamp limit (the invariant
the integrator itself maintains), a single step of duration 2·dt and two
steps of duration dt produce exactly the same VELOCITY; the claim's
position half fails (see the counterexample). -/
theorem update_velocity_dt_split (drag M dt : ℝ) (p : ParasiteState)
    (hd0 : 0 < drag) (hd1 : drag ≤ 1) (hdt : 0 ≤ dt)
    (hax : p.ax = 0) (hay : p.ay = 0)
    (hsp : speedOf p.vx p.vy ≤ M) :
    (Parasite.update drag M (2 * dt) 0 0 p).vx =
      (Parasite.update drag M dt 0 0 (Parasite.update drag M dt 0 0 p)).vx ∧
    (Parasite.update drag M (2 * dt) 0 0 p).vy =
      (Parasite.update drag M dt 0 0 (Parasite.update drag M dt 0 0 p)).vy := by
  set e := dragFactor drag dt with he_def
  have he0 : 0 < e := dragFactor_pos drag dt hd0
  have he1 : e ≤ 1 := dragFactor_le_one drag dt hd0 hd1 hdt
  have hs0 : 0 ≤ speedOf p.vx p.vy := speedOf_nonneg _ _
  have hs1 : speedOf (p.vx * e) (p.vy * e) = speedOf p.vx p.vy * e :=
    speedOf_mul_right _ _ _ he0.le
  have hs1le : speedOf (p.vx * e) (p.vy * e) ≤ M := by
    rw [hs1]
    calc speedOf p.vx p.vy * e ≤ speedOf p.vx p.vy * 1 :=
          mul_le_mul_of_nonneg_left he1 hs0
      _ = speedOf p.vx p.vy := mul_one _
      _ ≤ M := hsp
  have he2 : dragFactor drag (2 * dt) = e * e := dragFactor_two_mul drag dt hd0
  have hs2 : speedOf (p.vx * (e * e)) (p.vy * (e * e)) =
      speedOf p.vx p.vy * (e * e) := speedOf_mul_right _ _ _ (by positivity)
  have hs2le : speedOf (p.vx * (e * e)) (p.vy * (e * e)) ≤ M := by
    rw [hs2]
    calc speedOf p.vx p.vy * (e * e) ≤ speedOf p.vx p.vy * 1 :=
          mul_le_mul_of_nonneg_left
            (by nlinarith) hs0
      _ = speedOf p.vx p.vy := mul_one _
      _ ≤ M := hsp
  have hsingle := update_eval drag M (2 * dt) p hax hay (by rw [he2]; exact hs2le)
  have hfirst := update_eval drag M dt p hax hay hs1le
  have hqax : (Parasite.update drag M dt 0 0 p).ax = 0 := rfl
  have hqay : (Parasite.update drag M dt 0 0 p).ay = 0 := rfl
  have h0M : (0 : ℝ) ≤ M := le_trans hs0 hsp
  by_cases hc1 : speedOf (p.vx * e) (p.vy * e) < 1
  · -- first dt step snaps to zero; so do the second step and the single 2dt step
    have hq_vx : (Parasite.update drag M dt 0 0 p).vx = 0 := by
      rw [hfirst.1, if_pos hc1]
    have hq_vy : (Parasite.update drag M dt 0 0 p).vy = 0 := by
      rw [hfirst.2.1, if_pos hc1]
    have hsecond := update_eval drag M dt (Parasite.update drag M dt 0 0 p)
      hqax hqay (by rw [hq_vx, hq_vy, zero_mul, speedOf_zero]; exact h0M)
    have hsingle_c : speedOf (p.vx * (e * e)) (p.vy * (e * e)) < 1 := by
      rw [hs2]
      calc speedOf p.vx p.vy * (e * e) = speedOf p.vx p.vy * e * e := by ring
        _ ≤ speedOf p.vx p.vy * e * 1 :=
            mul_le_mul_of_nonneg_left he1 (by positivity)
        _ = speedOf p.vx p.vy * e := mul_one _
        _ < 1 := by rw [← hs1]; exact hc1
    constructor
    · rw [hsingle.1, he2, if_pos hsingle_c, hsecond.1, hq_vx, zero_mul,
        hq_vy, zero_mul, speedOf_zero, if_pos (by norm_num : (0:ℝ) < 1)]
    · rw [hsingle.2.1, he2, if_pos hsingle_c, hsecond.2.1, hq_vx, zero_mul,
        hq_vy, zero_mul, speedOf_zero, if_pos (by norm_num : (0:ℝ) < 1)]
  · -- no snap after the first step
    have hq_vx : (Parasite.update drag M dt 0 0 p).vx = p.vx * e := by
      rw [hfirst.1, if_neg hc1]
    have hq_vy : (Parasite.update drag M dt 0 0 p).vy = p.vy * e := by
      rw [hfirst.2.1, if_neg hc1]
    have hsecond := update_eval drag M dt (Parasite.update drag M dt 0 0 p)
      hqax hqay (by
        rw [hq_vx, hq_vy, mul_assoc, mul_assoc]
        exact hs2le)
    have hcond : (speedOf (p.vx * e * e) (p.vy * e * e) < 1) ↔
        (speedOf (p.vx * (e * e)) (p.vy * (e * e)) < 1) := by
      rw [mul_assoc, mul_assoc]
    constructor
    · rw [hsingle.1, he2, hsecond.1, hq_vx, hq_vy]
      by_cases hc2 : speedOf (p.vx * (e * e)) (p.vy * (e * e)) < 1
      · rw [if_pos hc2, if_pos (hcond.mpr hc2)]
      · rw [if_neg hc2, if_neg (fun h => hc2 (hcond.mp h)), mul_assoc]
    · rw [hsingle.2.1, he2, hsecond.2.1, hq_vx, hq_vy]
      by_cases hc2 : speedOf (p.vx * (e * e)) (p.vy * (e * e)) < 1
      · rw [if_pos hc2, if_pos (hcond.mpr hc2)]
      · rw [if_neg hc2, if_neg (fun h => hc2 (hcond.mp h)), mul_assoc]

/-- One axis-aligned non-clamping step evaluated to a literal state. -/
theorem update_eval_axis (drag M dt x0 y0 v : ℝ)
    (h1 : 1 ≤ v * dragFactor drag dt) (h2 : v * dragFactor drag dt ≤ M) :
    Parasite.update drag M dt 0 0 (ParasiteState.mk x0 y0 v 0 0 0) =
      ParasiteState.mk (x0 + v * dragFactor drag dt * (dt / 1000)) y0
        (v * dragFactor drag dt) 0 0 0 := by
  have h0 : 0 ≤ v * dragFactor drag dt := le_trans zero_le_one h1
  have hax : speedOf (v * dragFactor drag dt) (0 * dragFactor drag dt) =
      v * dragFactor drag dt := by
    rw [zero_mul, speedOf_axis _ h0]
  have h := update_eval drag M dt (ParasiteState.mk x0 y0 v 0 0 0) rfl rfl
    (by rw [show (ParasiteState.mk x0 y0 v 0 0 0).vx = v from rfl,
      show (ParasiteState.mk x0 y0 v 0 0 0).vy = 0 from rfl, hax]; exact h2)
  have hcond : ¬ speedOf ((ParasiteState.mk x0 y0 v 0 0 0).vx * dragFactor drag dt)
      ((ParasiteState.mk x0 y0 v 0 0 0).vy * dragFactor drag dt) < 1 := by
    rw [show (ParasiteState.mk x0 y0 v 0 0 0).vx = v from rfl,
      show (ParasiteState.mk x0 y0 v 0 0 0).vy = 0 from rfl, hax]
    exact not_lt.mpr h1
  ext
  · rw [h.2.2.1, if_neg hcond]
  · rw [h.2.2.2, if_neg hcond]
    exact (by ring : y0 + (0 : ℝ) * dragFactor drag dt * (dt / 1000) = y0)
  · rw [h.1, if_neg hcond]
  · rw [h.2.1, if_neg hcond, zero_mul]
  · rfl
  · rfl

/-- One axis-aligned step evaluated to a literal state when the clamp fires
and the limit is at least the zero-snap threshold. -/
theorem update_eval_axis_clamped (drag M dt x0 y0 v : ℝ)
    (hv : 0 < v * dragFactor drag dt) (hgt : M < v * dragFactor drag dt)
    (hM1 : 1 ≤ M) :
    Parasite.update drag M dt 0 0 (ParasiteState.mk x0 y0 v 0 0 0) =
      ParasiteState.mk (x0 + M * (dt / 1000)) y0 M 0 0 0 := by
  have h0M : (0 : ℝ) ≤ M := le_trans zero_le_one hM1
  unfold Parasite.update clampVelocity
  dsimp only
  rw [show v + 0 * (dt / 1000) + 0 * (dt / 1000) = v by ring,
    show (0 : ℝ) + 0 * (dt / 1000) + 0 * (dt / 1000) = 0 by ring,
    zero_mul, speedOf_axis _ hv.le, if_pos hgt,
    div_self (ne_of_gt hv), one_mul, zero_div, zero_mul]
  dsimp only
  rw [speedOf_axis _ h0M, if_neg (not_lt.mpr hM1)]
  ext <;> first | rfl | ring

/-- C5 counterexample: with drag 0.94, max speed 450 and dt = 16.667 ms,
starting at rest position 0 with velocity 100 the POSITION after one
2·dt step differs from the position after two dt steps (explicit-Euler
path dependence, a discrepancy of ≈0.094 world units, far beyond
floating-point tolerance); and starting with velocity 1000 (above the
clamp) even the VELOCITY differs: 450 versus 450·0.94 = 423. -/
theorem update_double_step_mismatch :
    (Parasite.update (94/100) 450 (2 * (16667/1000)) 0 0
        (ParasiteState.mk 0 0 100 0 0 0)).x ≠
      (Parasite.update (94/100) 450 (16667/1000) 0 0
        (Parasite.update (94/100) 450 (16667/1000) 0 0
          (ParasiteState.mk 0 0 100 0 0 0))).x ∧
    (Parasite.update (94/100) 450 (2 * (16667/1000)) 0 0
        (ParasiteState.mk 0 0 1000 0 0 0)).vx ≠
      (Parasite.update (94/100) 450 (16667/1000) 0 0
        (Parasite.update (94/100) 450 (16667/1000) 0 0
          (ParasiteState.mk 0 0 1000 0 0 0))).vx := by
  have he : dragFactor (94/100 : ℝ) (16667/1000) = 94/100 := by
    unfold dragFactor
    rw [show (16667/1000 : ℝ) / 16.667 = 1 by norm_num, Real.rpow_one]
  have he2 : dragFactor (94/100 : ℝ) (2 * (16667/1000)) = 94/100 * (94/100) :=
    by rw [dragFactor_two_mul _ _ (by norm_num), he]
  constructor
  · rw [update_eval_axis (94/100) 450 (16667/1000) 0 0 100
        (by rw [he]; norm_num) (by rw [he]; norm_num),
      update_eval_axis (94/100) 450 (16667/1000) _ _ _
        (by rw [he]; norm_num) (by rw [he]; norm_num),
      update_eval_axis (94/100) 450 (2 * (16667/1000)) 0 0 100
        (by rw [he2]; norm_num) (by rw [he2]; norm_num)]
    rw [he, he2]
    norm_num
  · rw [update_eval_axis_clamped (94/100) 450 (16667/1000) 0 0 1000
        (by rw [he]; norm_num) (by rw [he]; norm_num) (by norm_num),
      update_eval_axis (94/100) 450 (16667/1000) _ _ 450
        (by rw [he]; norm_num) (by rw [he]; norm_num),
      update_eval_axis_clamped (94/100) 450 (2 * (16667/1000)) 0 0 1000
        (by rw [he2]; norm_num) (by rw [he2]; norm_num) (by norm_num)]
    rw [he]
    norm_num

/-- Witness for C5 amended: drag 0.94, max speed 450, dt 16.667, initial
velocity (100, 0). -/
theorem update_velocity_dt_split_witness :
    ((0 : ℝ) < 94/100 ∧ (94/100 : ℝ) ≤ 1 ∧ (0 : ℝ) ≤ 16667/1000 ∧
      speedOf (100 : ℝ) 0 ≤ 450) ∧
    (Parasite.update (94/100) 450 (2 * (16667/1000)) 0 0
        (ParasiteState.mk 0 0 100 0 0 0)).vx =
      (Parasite.update (94/100) 450 (16667/1000) 0 0
        (Parasite.update (94/100) 450 (16667/1000) 0 0
          (ParasiteState.mk 0 0 100 0 0 0))).vx :=
  ⟨⟨by norm_num, by norm_num, by norm_num,
      by rw [speedOf_axis _ (by norm_num : (0:ℝ) ≤ 100)]; norm_num⟩,
    (update_velocity_dt_split (94/100) 450 (16667/1000)
      (ParasiteState.mk 0 0 100 0 0 0) (by norm_num) (by norm_num) (by norm_num)
      rfl rfl
      (by rw [speedOf_axis _ (by norm_num : (0:ℝ) ≤ 100)]; norm_num)).1⟩

namespace Collision

/-- Circle (src/src/core/Collision.ts, lines 8-12). -/
structure Circle where
  x : ℝ
  y : ℝ
  radius : ℝ

/-- CollisionResult (src/src/core/Collision.ts, lines 21-27); the nested
`normal` object is flattened into `normalX`/`normalY`. -/
structure CollisionResult where
  collided : Bool
  overlapX : ℝ
  overlapY : ℝ
  normalX : ℝ
  normalY : ℝ
  penetration : ℝ

/-- circleCircleDetailed (src/src/core/Collision.ts, lines 43-71). -/
noncomputable def circleCircleDetailed (a b : Circle) : CollisionResult :=
  let dx := b.x - a.x
  let dy := b.y - a.y
  let dist := Real.sqrt (dx * dx + dy * dy)
  let radiiSum := a.radius + b.radius
  if dist ≥ radiiSum then
    { collided := false, overlapX := 0, overlapY := 0
      normalX := 0, normalY := 0, penetration := 0 }
  else
    let nx := if dist > 0 then dx / dist else 1
    let ny := if dist > 0 then dy / dist else 0
    let penetration := radiiSum - dist
    { collided := true, overlapX := nx * penetration, overlapY := ny * penetration
      normalX := nx, normalY := ny, penetration := penetration }

end Collision

/-- C8: `circleCircleDetailed` reports a collision iff the centre distance
is strictly below the radii sum; when colliding, the penetration is
`(ra + rb) - dist`, and the normal is the unit vector `(dx, dy)/dist` when
`dist > 0` and the fixed `(1, 0)` when `dist = 0`. -/
theorem circleCircleDetailed_spec (a b : Collision.Circle) :
    ((Collision.circleCircleDetailed a b).collided = true ↔
      Real.sqrt ((b.x - a.x) * (b.x - a.x) + (b.y - a.y) * (b.y - a.y)) <
        a.radius + b.radius) ∧
    (Real.sqrt ((b.x - a.x) * (b.x - a.x) + (b.y - a.y) * (b.y - a.y)) <
        a.radius + b.radius →
      (Collision.circleCircleDetailed a b).penetration =
        a.radius + b.radius -
          Real.sqrt ((b.x - a.x) * (b.x - a.x) + (b.y - a.y) * (b.y - a.y)) ∧
      (0 < Real.sqrt ((b.x - a.x) * (b.x - a.x) + (b.y - a.y) * (b.y - a.y)) →
        (Collision.circleCircleDetailed a b).normalX =
          (b.x - a.x) /
            Real.sqrt ((b.x - a.x) * (b.x - a.x) + (b.y - a.y) * (b.y - a.y)) ∧
        (Collision.circleCircleDetailed a b).normalY =
          (b.y - a.y) /
            Real.sqrt ((b.x - a.x) * (b.x - a.x) + (b.y - a.y) * (b.y - a.y)) ∧
        (Collision.circleCircleDetailed a b).normalX *
            (Collision.circleCircleDetailed a b).normalX +
          (Collision.circleCircleDetailed a b).normalY *
            (Collision.circleCircleDetailed a b).normalY = 1) ∧
      (Real.sqrt ((b.x - a.x) * (b.x - a.x) + (b.y - a.y) * (b.y - a.y)) = 0 →
        (Collision.circleCircleDetailed a b).normalX = 1 ∧
        (Collision.circleCircleDetailed a b).normalY = 0)) := by
  unfold Collision.circleCircleDetailed
  dsimp only
  by_cases hout : Real.sqrt ((b.x - a.x) * (b.x - a.x) + (b.y - a.y) * (b.y - a.y)) ≥
      a.radius + b.radius
  · rw [if_pos hout]
    exact ⟨⟨fun h => (Bool.false_ne_true h).elim,
        fun h => absurd h (not_lt.mpr hout)⟩,
      fun h => absurd h (not_lt.mpr hout)⟩
  · rw [if_neg hout]
    push_neg at hout
    refine ⟨⟨fun _ => hout, fun _ => rfl⟩, fun hlt => ⟨rfl, ?_, ?_⟩⟩
    · intro hpos
      dsimp only
      simp only [if_pos hpos]
      refine ⟨by trivial, by trivial, ?_⟩
      have hd2 : Real.sqrt ((b.x - a.x) * (b.x - a.x) + (b.y - a.y) * (b.y - a.y)) *
          Real.sqrt ((b.x - a.x) * (b.x - a.x) + (b.y - a.y) * (b.y - a.y)) =
          (b.x - a.x) * (b.x - a.x) + (b.y - a.y) * (b.y - a.y) :=
        Real.mul_self_sqrt
          (add_nonneg (mul_self_nonneg _) (mul_self_nonneg _))
      field_simp [ne_of_gt hpos]
      nlinarith [hd2]
    · intro hzero
      dsimp only
      simp only [if_neg (by rw [hzero]; exact lt_irrefl (0:ℝ) : ¬ Real.sqrt
        ((b.x - a.x) * (b.x - a.x) + (b.y - a.y) * (b.y - a.y)) > 0)]
      exact ⟨by trivial, by trivial⟩

/-- Witness for C8: circles of radius 2 at distance 1. -/
theorem circleCircleDetailed_spec_witness :
    (Collision.circleCircleDetailed (Collision.Circle.mk 0 0 2)
        (Collision.Circle.mk 1 0 2)).collided = true ∧
    (Collision.circleCircleDetailed (Collision.Circle.mk 0 0 2)
        (Collision.Circle.mk 1 0 2)).penetration = 3 ∧
    (Collision.circleCircleDetailed (Collision.Circle.mk 0 0 2)
        (Collision.Circle.mk 1 0 2)).normalX = 1 ∧
    (Collision.circleCircleDetailed (Collision.Circle.mk 0 0 2)
        (Collision.Circle.mk 1 0 2)).normalY = 0 := by
  have h := circleCircleDetailed_spec (Collision.Circle.mk 0 0 2)
    (Collision.Circle.mk 1 0 2)
  dsimp only at h
  have hd : Real.sqrt (((1:ℝ) - 0) * (1 - 0) + (0 - 0) * (0 - 0)) = 1 := by
    norm_num
  rw [hd] at h
  have hlt : (1:ℝ) < 2 + 2 := by norm_num
  refine ⟨h.1.mpr hlt, ?_, ?_, ?_⟩
  · rw [(h.2 hlt).1]
    norm_num
  · rw [((h.2 hlt).2.1 (by norm_num)).1]
    norm_num
  · rw [((h.2 hlt).2.1 (by norm_num)).2.1]
    norm_num
